import Mathlib

/-!
# Gemini's Vision — conversation-state protocol, shallowly embedded

Shallow embedding of the conversation-state protocol of the
Gemini's-Vision repository: the server endpoint `handle_analysis` and
inference adapter `analyze_image` of `mobile-git-version.py`, and the
client loop of `main.py` (its `analyze_image` HTTP round trip, its
mode/follow-up key handling, and the cue logic of `speak`).

The vision-language model, the image decoder, the network and the
devices are external collaborators; they enter as explicit oracle
parameters.  A conversation turn is a role together with a list of
content parts, the shape the wire carries (`role`, `parts`).

Note on the source: in `mobile-git-version.py` the dict literal
`prompts = ...` opened at line 58 is never closed (the closing brace
before `base_prompt = prompts.get(mode, prompts["general"])` is
missing), so the file as committed is rejected by the Python parser.
The embedding below reads the evident program, with that dict closed.
-/

namespace GeminiVision

/-- One exchange element of a conversation: a `role` (`"user"` or
`"model"`) and its content `parts`, as carried on the wire. -/
structure Turn where
  role : String
  parts : List String
deriving DecidableEq, Repr

/-- A conversation history: the ordered list of turns. -/
abbrev History := List Turn

/-! ## Wire form: the JSON fragment `json.dumps` / `json.loads` act on

The client places `json.dumps(history)` in the `history` form field and
the server reads it back with `json.loads`.  The functions below embed
that pair on the history fragment of JSON: an array of objects
`\x7b"role": <string>, "parts": [<string>, ...]\x7d`, with Python's
default separators (`", "` and `": "`) and string escaping.  The
embedding emits non-ASCII characters directly (`ensure_ascii=False`
form); `json.loads` maps either encoding of a string to the same value,
so the round-trip composition is unaffected by that choice. -/

/-- Lower-case hex digit for a value below 16. -/
def hexDigitChar (n : Nat) : Char :=
  if n < 10 then Char.ofNat (48 + n) else Char.ofNat (87 + n)

/-- JSON string escaping of one character, as `json.dumps` does it:
quote and backslash escaped, the common control characters by their
short escapes, remaining control characters as `\u00XX`. -/
def escapeChar (c : Char) : List Char :=
  if c = '"' then ['\\', '"']
  else if c = '\\' then ['\\', '\\']
  else if c = '\x08' then ['\\', 'b']
  else if c = '\x0c' then ['\\', 'f']
  else if c = '\n' then ['\\', 'n']
  else if c = '\r' then ['\\', 'r']
  else if c = '\t' then ['\\', 't']
  else if c.toNat < 32 then
    ['\\', 'u', '0', '0', hexDigitChar (c.toNat / 16), hexDigitChar (c.toNat % 16)]
  else [c]

/-- Escape every character of a string body. -/
def escapeList : List Char → List Char
  | [] => []
  | c :: cs => escapeChar c ++ escapeList cs

/-- A JSON string literal: quote, escaped body, quote. -/
def quoteString (s : String) : List Char :=
  '"' :: (escapeList s.data ++ ['"'])

/-- Join pre-rendered elements with `", "`, Python's default item
separator. -/
def commaJoin : List (List Char) → List Char
  | [] => []
  | [x] => x
  | x :: xs => x ++ (',' :: ' ' :: commaJoin xs)

/-- A JSON array of strings. -/
def serializeParts (ps : List String) : List Char :=
  '[' :: (commaJoin (ps.map quoteString) ++ [']'])

/-- A JSON object for one turn: `\x7b"role": r, "parts": ps\x7d`. -/
def serializeTurn (t : Turn) : List Char :=
  '{' :: (quoteString "role" ++ (':' :: ' ' :: quoteString t.role ++
    (',' :: ' ' :: quoteString "parts" ++ (':' :: ' ' :: serializeParts t.parts ++ ['}']))))

/-- The wire form of a history: `json.dumps` of the list of turn
objects. -/
def serializeHistory (h : History) : String :=
  String.mk ('[' :: (commaJoin (h.map serializeTurn) ++ [']']))

/-! ### The reading direction (`json.loads` on the same fragment) -/

/-- Numeric value of a hex digit, upper or lower case. -/
def hexVal (c : Char) : Option Nat :=
  if 48 ≤ c.toNat ∧ c.toNat ≤ 57 then some (c.toNat - 48)
  else if 97 ≤ c.toNat ∧ c.toNat ≤ 102 then some (c.toNat - 87)
  else if 65 ≤ c.toNat ∧ c.toNat ≤ 70 then some (c.toNat - 55)
  else none

/-- JSON whitespace (space, tab, newline, carriage return) skipped
between tokens. -/
def skipWs : List Char → List Char
  | [] => []
  | c :: cs => if c = ' ' ∨ c = '\t' ∨ c = '\n' ∨ c = '\r' then skipWs cs else c :: cs

/-- The short escapes `json.loads` accepts after a backslash. -/
def unescape (e : Char) : Option Char :=
  if e = '"' then some '"'
  else if e = '\\' then some '\\'
  else if e = '/' then some '/'
  else if e = 'b' then some '\x08'
  else if e = 'f' then some '\x0c'
  else if e = 'n' then some '\n'
  else if e = 'r' then some '\r'
  else if e = 't' then some '\t'
  else none

/-- Parse a JSON string body up to and including its closing quote,
returning the decoded characters and the remaining input.  Raw control
characters are rejected, as `json.loads` does in its default strict
mode. -/
def parseStringBody : List Char → Option (List Char × List Char)
  | [] => none
  | c :: rest =>
    if c = '"' then some ([], rest)
    else if c = '\\' then
      match rest with
      | [] => none
      | e :: rest2 =>
        if e = 'u' then
          match rest2 with
          | a :: b :: c2 :: d :: rest3 =>
            match hexVal a, hexVal b, hexVal c2, hexVal d with
            | some x, some y, some z, some w =>
              (parseStringBody rest3).map
                (fun p => (Char.ofNat (4096 * x + 256 * y + 16 * z + w) :: p.1, p.2))
            | _, _, _, _ => none
          | _ => none
        else
          match unescape e with
          | some ch => (parseStringBody rest2).map (fun p => (ch :: p.1, p.2))
          | none => none
    else if c.toNat < 32 then none
    else (parseStringBody rest).map (fun p => (c :: p.1, p.2))

/-- Parse a JSON string token: optional whitespace, then a quoted
string. -/
def parseJString (l : List Char) : Option (List Char × List Char) :=
  match skipWs l with
  | '"' :: rest => parseStringBody rest
  | _ => none

/-- Parse the items of a JSON array of strings, positioned just after
the opening bracket; consumes the closing bracket.  `fuel` bounds the
number of items. -/
def parseItems : Nat → List Char → Option (List String × List Char)
  | 0, _ => none
  | fuel + 1, l =>
    match skipWs l with
    | ']' :: r => some ([], r)
    | _ =>
      match parseJString l with
      | none => none
      | some (s, r1) =>
        match skipWs r1 with
        | ',' :: r2 => (parseItems fuel r2).map (fun p => (String.mk s :: p.1, p.2))
        | ']' :: r2 => some ([String.mk s], r2)
        | _ => none

/-- Parse one turn object `\x7b"role": ..., "parts": [...]\x7d`. -/
def parseTurn (fuel : Nat) (l : List Char) : Option (Turn × List Char) :=
  match skipWs l with
  | '{' :: r0 =>
    match parseJString r0 with
    | some (k1, r1) =>
      if k1 = "role".data then
        match skipWs r1 with
        | ':' :: r2 =>
          match parseJString r2 with
          | some (v1, r3) =>
            match skipWs r3 with
            | ',' :: r4 =>
              match parseJString r4 with
              | some (k2, r5) =>
                if k2 = "parts".data then
                  match skipWs r5 with
                  | ':' :: r6 =>
                    match skipWs r6 with
                    | '[' :: r7 =>
                      match parseItems fuel r7 with
                      | some (ps, r8) =>
                        match skipWs r8 with
                        | '}' :: r9 => some (⟨String.mk v1, ps⟩, r9)
                        | _ => none
                      | none => none
                    | _ => none
                  | _ => none
                else none
              | none => none
            | _ => none
          | none => none
        | _ => none
      else none
    | none => none
  | _ => none

/-- Parse the elements of the top-level turn array, positioned just
after the opening bracket; consumes the closing bracket. -/
def parseTurns : Nat → List Char → Option (History × List Char)
  | 0, _ => none
  | fuel + 1, l =>
    match skipWs l with
    | ']' :: r => some ([], r)
    | _ =>
      match parseTurn (fuel + 1) l with
      | none => none
      | some (t, r1) =>
        match skipWs r1 with
        | ',' :: r2 => (parseTurns fuel r2).map (fun p => (t :: p.1, p.2))
        | ']' :: r2 => some ([t], r2)
        | _ => none

/-- Reading direction, `json.loads` on the history fragment: the whole input must be one
turn array, up to surrounding whitespace.  `none` is the
`json.JSONDecodeError` outcome. -/
def deserializeHistory (s : String) : Option History :=
  match skipWs s.data with
  | '[' :: r =>
    match parseTurns (s.data.length + 1) r with
    | some (ts, r2) =>
      match skipWs r2 with
      | [] => some ts
      | _ => none
    | none => none
  | _ => none

/-- Lists made of JSON whitespace only. -/
def IsWs (l : List Char) : Prop :=
  ∀ c ∈ l, c = ' ' ∨ c = '\t' ∨ c = '\n' ∨ c = '\r'

/-- Body of a serialized turn object after its opening brace, with a
continuation; proof-side abbreviation. -/
def serializeTurnBody (t : Turn) (tail : List Char) : List Char :=
  quoteString "role" ++ (':' :: ' ' :: (quoteString t.role ++ (',' :: ' ' ::
    (quoteString "parts" ++ (':' :: ' ' :: ('[' :: (commaJoin (t.parts.map quoteString) ++
      (']' :: ('}' :: tail)))))))))

/-- Fuel measure dominating the recursion depth needed to parse a
printed history: one unit per turn plus one per content part. -/
def historyFuel (h : History) : Nat :=
  h.length + (h.map (fun t => t.parts.length)).sum

/-! ## Server: `mobile-git-version.py` -/

namespace Server

/-- Oracles for the server's external collaborators: `send` is one
`chat.send_message` round trip of the `google.generativeai` chat session
(from the session's prior history and the message parts to the answer
text, or an exception), `decodeImage` is `PIL.Image.open` on the
uploaded bytes (an image reference, or an exception). -/
structure Env where
  send : History → List String → Except String String
  decodeImage : String → Except String String

/-- The `"street"` entry of the `prompts` dict in `analyze_image`. -/
def streetPrompt : String :=
  "IMPORTANT: You are a safety assistant for a visually impaired user who is outdoors.\n1.  **Safety First:** Prioritize identifying immediate dangers like moving vehicles, cyclists, traffic lights, crosswalks, uneven pavement, and obstacles on the path.\n2.  **Warn Clearly:** If a danger is detected, begin with a clear warning (e.g., \"Warning: Car approaching from the left.\").\n3.  **Answer the Question:** After warnings, answer the user's question in the context of being on a street.\n"

/-- The `"kitchen"` entry of the `prompts` dict in `analyze_image`. -/
def kitchenPrompt : String :=
  "IMPORTANT: You are a safety assistant for a visually impaired user in a kitchen.\n1.  **Safety First:** Prioritize identifying immediate dangers like hot surfaces (stoves, ovens), sharp objects (knives), open flames, and spills on the floor.\n2.  **Warn Clearly:** If a danger is detected, begin with a clear warning (e.g., \"Caution: A sharp knife is on the counter to your right.\").\n3.  **Answer the Question:** After warnings, answer the user's question in the context of a kitchen environment.\n"

/-- The `"general"` entry of the `prompts` dict in `analyze_image`. -/
def generalPrompt : String :=
  "IMPORTANT: Your primary role is to be a safety assistant for a visually impaired user.\n1.  **Safety First:** Meticulously analyze the image for any potential hazards. This includes, but is not limited to: obstacles on the ground, stairs, or sudden drops.\n2.  **Warn Clearly:** If a danger is detected, begin your response with a clear, direct warning.\n3.  **Answer the Question:** After issuing any necessary warnings, then proceed to answer the user's question.\n"

/-- The lookup `prompts.get(mode, prompts["general"])`: keyed lookup in the
three-entry dict, defaulting to the `"general"` entry. -/
def promptsGet (mode : String) : String :=
  if mode = "street" then streetPrompt
  else if mode = "kitchen" then kitchenPrompt
  else if mode = "general" then generalPrompt
  else generalPrompt

/-- The `try:` body of the server's `analyze_image`: `.error` is an
exception reaching the `except` clause (the explicit `ValueError` when a
new conversation has no image bytes, an `Image.open` failure, or a
failure of the model call); `.ok` carries `(response.text,
chat.history)`.  `history.getD []` is `history or []`, and the emptiness
test is `if not history:` (`None` and `[]` are both falsy). -/
def analyzeCore (env : Env) (image_bytes : Option String) (user_question : String)
    (mode : String) (history : Option History) : Except String (String × History) :=
  let h := history.getD []
  if h.isEmpty then
    match image_bytes with
    | none => Except.error "Image bytes are required for a new conversation."
    | some bs =>
      if bs = "" then Except.error "Image bytes are required for a new conversation."
      else
        match env.decodeImage bs with
        | Except.error e => Except.error e
        | Except.ok img =>
          let base_prompt := promptsGet mode
          let final_prompt := base_prompt ++ "\nUser's question: \"" ++ user_question ++ "\""
          match env.send h [final_prompt, img] with
          | Except.error e => Except.error e
          | Except.ok answer =>
            Except.ok (answer, h ++ [⟨"user", [final_prompt, img]⟩, ⟨"model", [answer]⟩])
  else
    match env.send h [user_question] with
    | Except.error e => Except.error e
    | Except.ok answer =>
      Except.ok (answer, h ++ [⟨"user", [user_question]⟩, ⟨"model", [answer]⟩])

/-- The fixed degraded answer of the `except` clause. -/
def geminiErrorText : String := "I could not connect to Gemini or process the image."

/-- The server's `analyze_image`: the `try:` body with its `except`
clause, which converts any exception into the fixed text and an empty
history. -/
def analyze_image (env : Env) (image_bytes : Option String) (user_question : String)
    (mode : String) (history : Option History) : String × History :=
  match analyzeCore env image_bytes user_question mode history with
  | Except.ok r => r
  | Except.error _ => (geminiErrorText, [])

/-- A multipart POST to `/analyze` as Flask presents it: the text form
fields and the uploaded files (name to byte payload). -/
structure Request where
  form : List (String × String)
  files : List (String × String)

/-- Form lookup, `request.form.get` / membership. -/
def formGet (r : Request) (k : String) : Option String :=
  (r.form.find? (fun p => p.1 == k)).map (·.2)

/-- File lookup in `request.files`; `some` payload is the bytes
`image_file.stream.read()` returns. -/
def filesGet (r : Request) (k : String) : Option String :=
  (r.files.find? (fun p => p.1 == k)).map (·.2)

/-- The three response shapes `handle_analysis` can produce:
`jsonify(result/history)` with status 200, and the `jsonify(error)`
responses with status 400 and 500. -/
inductive HttpResponse where
  | result (result : String) (history : History)
  | clientError (error : String)
  | serverError (error : String)
deriving DecidableEq, Repr

/-- The handler line
`history = json.loads(history_str) if history_str else None`: absent or
empty field gives `None`; otherwise `json.loads` runs, and on a
malformed string its `json.JSONDecodeError` propagates (the `.error`
outcome) — the line sits before the handler's `try:` block and nothing
catches it.  `deserializeHistory` embeds `json.loads` on the history
fragment of JSON: on wire forms this system produces, and on strings
malformed for JSON as a whole, it agrees with `json.loads`; JSON
documents outside the fragment (numbers, `null`, objects) are not
modelled. -/
def loadHistory (history_str : Option String) : Except String (Option History) :=
  match history_str with
  | none => Except.ok none
  | some s =>
    if s = "" then Except.ok none
    else
      match deserializeHistory s with
      | some hv => Except.ok (some hv)
      | none => Except.error "json.decoder.JSONDecodeError"

/-- The rest of `handle_analysis` after the question-presence check: history
loading, then the `try:` body.  The body itself is total here (the
adapter never raises), so the 500 branch of the source's `except`
clause produces no reachable `.serverError`. -/
def handleWithQuestion (env : Env) (req : Request) (question : String) :
    Except String HttpResponse :=
  let mode := (formGet req "mode").getD "general"
  match loadHistory (formGet req "history") with
  | Except.error e => Except.error e
  | Except.ok history =>
    if (history.getD []).isEmpty then
      match filesGet req "image" with
      | none =>
        Except.ok (HttpResponse.clientError "No image file provided for a new conversation.")
      | some image_bytes =>
        let r := analyze_image env (some image_bytes) question mode none
        Except.ok (HttpResponse.result r.1 r.2)
    else
      let r := analyze_image env none question mode history
      Except.ok (HttpResponse.result r.1 r.2)

/-- The `/analyze` endpoint `handle_analysis`: question validation, then
the rest of the handler.  An `.error` value is an exception escaping the
handler (Flask then renders an opaque 500). -/
def handle_analysis (env : Env) (req : Request) : Except String HttpResponse :=
  match formGet req "question" with
  | none => Except.ok (HttpResponse.clientError "No question provided.")
  | some question => handleWithQuestion env req question

end Server

/-! ## Client: `main.py` -/

namespace Client

/-- Python's `str.lower`, character-wise. -/
def pyLower (s : String) : String := String.mk (s.data.map Char.toLower)

/-- Python's `str.startswith`: the argument is a prefix of the
receiver. -/
def pyStartsWith (s p : String) : Bool := p.data.isPrefixOf s.data

/-- Number of warning audio cues `speak` plays for a given answer text:
`speak` returns at once on falsy text, otherwise plays `warning.mp3`
once when the lower-cased text starts with one of the three warning
prefixes. -/
def speakWarningCues (text : String) : Nat :=
  if text = "" then 0
  else
    let text_lower := pyLower text
    if pyStartsWith text_lower "warning:" || pyStartsWith text_lower "caution:" ||
        pyStartsWith text_lower "danger:" then 1
    else 0

/-- Spec-side predicate: the answer begins, case-insensitively, with
one of the prefixes "Warning:", "Caution:", "Danger:". -/
def warningPrefixed (text : String) : Bool :=
  ["warning:", "caution:", "danger:"].any (fun p => pyStartsWith (pyLower text) p)

/-- Python truthiness of the client's history variable: `None` and the
empty list are falsy. -/
def historyFalsy : Option History → Bool
  | none => true
  | some l => l.isEmpty

/-- The client's `analyze_image` (HTTP round trip to `/analyze`).
`fileExists` is `os.path.exists`; `net` is the outcome of
`requests.post` + `raise_for_status` + `.json()`: `.error` for a
`RequestException` (connection failure or 4xx/5xx status), `.ok` with
`(data.get("result", ...), data.get("history", []))` otherwise.  On a
request failure the function returns the error text with the history it
was given (`return error_message, history`); the explicit `ValueError`
for a missing image lands in the generic `except` clause. -/
def client_analyze (fileExists : String → Bool) (net : Except String (String × History))
    (image_path : Option String) (question mode : String) (history : Option History) :
    String × Option History :=
  if historyFalsy history then
    match image_path with
    | none =>
      ("An unexpected error occurred: Image path is required for a new conversation.", history)
    | some p =>
      if p = "" ∨ fileExists p = false then
        ("An unexpected error occurred: Image path is required for a new conversation.", history)
      else
        match net with
        | Except.error _ =>
          ("Could not connect to the local API server. Is mobile.py running?", history)
        | Except.ok (result, hist) => (result, some hist)
  else
    match net with
    | Except.error _ =>
      ("Could not connect to the local API server. Is mobile.py running?", history)
    | Except.ok (result, hist) => (result, some hist)

/-- The state the `main` loop threads between key events. -/
structure ClientState where
  current_mode_key : Char
  chat_history : Option History
deriving DecidableEq, Repr

/-- The `modes` dict of `main`. -/
def modes (k : Char) : Option String :=
  if k = '1' then some "general"
  else if k = '2' then some "street"
  else if k = '3' then some "kitchen"
  else none

/-- State `Idle` in the spec's sense: no usable conversation (the loop's
`if not chat_history:` test). -/
def isIdle (s : ClientState) : Bool := historyFalsy s.chat_history

/-- The mode-key branch of the `main` loop (`if key_char in modes:`):
only when the pressed key differs from the current one does the loop
change mode and clear `chat_history`. -/
def handleModeKey (s : ClientState) (key_char : Char) : ClientState :=
  match modes key_char with
  | none => s
  | some _ =>
    if s.current_mode_key ≠ key_char then
      { current_mode_key := key_char, chat_history := none }
    else s

/-- The follow-up branch of the `main` loop (`elif key == ord('f')`):
no-op without an active conversation or without a heard question,
otherwise one `client_analyze` round trip whose returned history
replaces `chat_history`. -/
def handleFollowUp (fileExists : String → Bool) (net : Except String (String × History))
    (listen : String) (s : ClientState) : ClientState :=
  if historyFalsy s.chat_history then s
  else if listen = "" then s
  else
    let r := client_analyze fileExists net none listen
      ((modes s.current_mode_key).getD "general") s.chat_history
    { s with chat_history := r.2 }

end Client

/-! ## Concrete fixtures used by witnesses and counterexamples -/

/-- A sample stored turn. -/
def turnX : Turn := ⟨"user", ["x"]⟩

/-- An environment whose model call always answers `"Hello"` and whose
image decoder always succeeds. -/
def envOk : Server.Env := ⟨fun _ _ => Except.ok "Hello", fun _ => Except.ok "IMG"⟩

/-- An environment whose model call always raises. -/
def envSendFail : Server.Env :=
  ⟨fun _ _ => Except.error "ServiceUnavailable", fun _ => Except.ok "IMG"⟩

/-- A client state with an active one-turn conversation in mode key 1. -/
def stateActive1 : Client.ClientState := ⟨'1', some [turnX]⟩

/-- A follow-up request whose history field is not JSON. -/
def reqBadHistory : Server.Request := ⟨[("question", "q"), ("history", "bad")], []⟩

/-- Another follow-up request with a malformed history field. -/
def reqBadHistory2 : Server.Request := ⟨[("question", "hello"), ("history", "[[[")], []⟩

/-- A fresh-conversation request whose question field is present but
empty. -/
def reqEmptyQuestion : Server.Request := ⟨[("question", "")], [("image", "IMGBYTES")]⟩

/-- A request with no question field at all. -/
def reqNoQuestion : Server.Request := ⟨[("mode", "street")], []⟩

/-- A fresh-conversation request without a mode field. -/
def reqNoMode : Server.Request := ⟨[("question", "q")], [("image", "IMG")]⟩

/-- A request with a question but neither image nor history. -/
def reqFresh : Server.Request := ⟨[("question", "q")], []⟩

/-- The wire form of the one-turn history `[turnX]`. -/
def wireX : String := serializeHistory [turnX]

/-- A request carrying both an image file and a non-empty history. -/
def reqBoth : Server.Request :=
  ⟨[("question", "q"), ("history", wireX)], [("image", "IMG")]⟩

/-! ## Round-trip lemmas for the wire form -/


theorem isWs_nil : IsWs [] := by intro c hc; cases hc

theorem isWs_space : IsWs [' '] := by
  intro c hc
  simp only [List.mem_singleton] at hc
  exact Or.inl hc

theorem skipWs_cons_of {c : Char} (cs : List Char)
    (h : ¬(c = ' ' ∨ c = '\t' ∨ c = '\n' ∨ c = '\r')) :
    skipWs (c :: cs) = c :: cs := by
  simp [skipWs, h]

theorem skipWs_ws_append {pre : List Char} (l : List Char) (hpre : IsWs pre) :
    skipWs (pre ++ l) = skipWs l := by
  induction pre with
  | nil => rfl
  | cons c cs ih =>
    have hc := hpre c (by simp)
    have hcs : IsWs cs := fun x hx => hpre x (by simp [hx])
    simp only [List.cons_append, skipWs, if_pos hc]
    exact ih hcs

theorem hexVal_hexDigitChar {n : Nat} (h : n < 16) :
    hexVal (hexDigitChar n) = some n := by
  interval_cases n <;> decide

theorem hexVal_zero : hexVal '0' = some 0 := by decide

theorem parseStringBody_escapeChar (c : Char) (tail : List Char) :
    parseStringBody (escapeChar c ++ tail) =
      (parseStringBody tail).map (fun p => (c :: p.1, p.2)) := by
  by_cases h1 : c = '"'
  · subst h1
    rw [show escapeChar '"' ++ tail = '\\' :: '"' :: tail by rfl, parseStringBody.eq_def]
    simp [unescape]
  by_cases h2 : c = '\\'
  · subst h2
    rw [show escapeChar '\\' ++ tail = '\\' :: '\\' :: tail by rfl, parseStringBody.eq_def]
    simp [unescape]
  by_cases h3 : c = '\x08'
  · subst h3
    rw [show escapeChar '\x08' ++ tail = '\\' :: 'b' :: tail by rfl, parseStringBody.eq_def]
    simp [unescape]
  by_cases h4 : c = '\x0c'
  · subst h4
    rw [show escapeChar '\x0c' ++ tail = '\\' :: 'f' :: tail by rfl, parseStringBody.eq_def]
    simp [unescape]
  by_cases h5 : c = '\n'
  · subst h5
    rw [show escapeChar '\n' ++ tail = '\\' :: 'n' :: tail by rfl, parseStringBody.eq_def]
    simp [unescape]
  by_cases h6 : c = '\r'
  · subst h6
    rw [show escapeChar '\r' ++ tail = '\\' :: 'r' :: tail by rfl, parseStringBody.eq_def]
    simp [unescape]
  by_cases h7 : c = '\t'
  · subst h7
    rw [show escapeChar '\t' ++ tail = '\\' :: 't' :: tail by rfl, parseStringBody.eq_def]
    simp [unescape]
  by_cases h8 : c.toNat < 32
  · have hdiv : c.toNat / 16 < 16 := by omega
    have hmod : c.toNat % 16 < 16 := Nat.mod_lt _ (by omega)
    simp only [escapeChar, if_neg h1, if_neg h2, if_neg h3, if_neg h4, if_neg h5,
      if_neg h6, if_neg h7, if_pos h8, List.cons_append, List.nil_append]
    rw [parseStringBody.eq_def]
    simp only [hexVal_zero, hexVal_hexDigitChar hdiv, hexVal_hexDigitChar hmod]
    have harith : 4096 * 0 + 256 * 0 + 16 * (c.toNat / 16) + c.toNat % 16 = c.toNat := by
      omega
    simp only [harith, Char.ofNat_toNat]
    simp
  · simp only [escapeChar, if_neg h1, if_neg h2, if_neg h3, if_neg h4, if_neg h5,
      if_neg h6, if_neg h7, if_neg h8, List.cons_append, List.nil_append]
    rw [parseStringBody.eq_def]
    simp [h1, h2, h8]

theorem parseStringBody_escapeList (s : List Char) (tail : List Char) :
    parseStringBody (escapeList s ++ ('"' :: tail)) = some (s, tail) := by
  induction s with
  | nil =>
    simp only [escapeList, List.nil_append]
    rw [parseStringBody.eq_def]
    simp
  | cons c cs ih =>
    simp only [escapeList, List.append_assoc]
    rw [parseStringBody_escapeChar, ih]
    rfl

theorem parseJString_quote (pre : List Char) (s : String) (tail : List Char)
    (hpre : IsWs pre) :
    parseJString (pre ++ (quoteString s ++ tail)) = some (s.data, tail) := by
  unfold parseJString
  rw [skipWs_ws_append _ hpre]
  have hq : quoteString s ++ tail = '"' :: (escapeList s.data ++ ('"' :: tail)) := by
    simp [quoteString]
  rw [hq, skipWs_cons_of _ (by decide)]
  exact parseStringBody_escapeList s.data tail

theorem mk_data (s : String) : String.mk s.data = s := rfl

theorem parseJString_quote_nil (s : String) (tail : List Char) :
    parseJString (quoteString s ++ tail) = some (s.data, tail) := by
  have h := parseJString_quote [] s tail isWs_nil
  simpa using h

theorem parseJString_quote_space (s : String) (tail : List Char) :
    parseJString (' ' :: (quoteString s ++ tail)) = some (s.data, tail) := by
  have h := parseJString_quote [' '] s tail isWs_space
  simpa using h

theorem skipWs_space_cons (l : List Char) : skipWs (' ' :: l) = skipWs l := by
  simp [skipWs]

theorem parseItems_print (ps : List String) :
    ∀ (fuel : Nat) (pre tail : List Char), IsWs pre → ps.length < fuel →
      parseItems fuel (pre ++ (commaJoin (ps.map quoteString) ++ (']' :: tail))) =
        some (ps, tail) := by
  induction ps with
  | nil =>
    intro fuel pre tail hpre hf
    cases fuel with
    | zero => omega
    | succ f =>
      rw [parseItems.eq_def]
      simp only [List.map_nil, commaJoin, List.nil_append]
      rw [skipWs_ws_append _ hpre, skipWs_cons_of _ (by decide)]
      rfl
  | cons x xs ih =>
    intro fuel pre tail hpre hf
    cases fuel with
    | zero => omega
    | succ f =>
      cases xs with
      | nil =>
        rw [parseItems.eq_def]
        simp only [List.map_cons, List.map_nil, commaJoin]
        rw [skipWs_ws_append _ hpre]
        rw [show quoteString x ++ (']' :: tail) =
          '"' :: (escapeList x.data ++ ('"' :: (']' :: tail))) by simp [quoteString]]
        rw [skipWs_cons_of _ (by decide)]
        have hp : parseJString (pre ++ (quoteString x ++ (']' :: tail))) =
            some (x.data, ']' :: tail) := parseJString_quote pre x _ hpre
        rw [show pre ++ ('"' :: (escapeList x.data ++ ('"' :: (']' :: tail)))) =
          pre ++ (quoteString x ++ (']' :: tail)) by simp [quoteString]] at *
        simp only [hp]
        rw [skipWs_cons_of _ (by decide)]
        simp [mk_data]
      | cons y ys =>
        rw [parseItems.eq_def]
        simp only [List.map_cons, commaJoin, List.append_assoc, List.cons_append]
        rw [skipWs_ws_append _ hpre]
        rw [show quoteString x ++ (',' :: ' ' ::
            (commaJoin (quoteString y :: ys.map quoteString) ++ (']' :: tail))) =
          '"' :: (escapeList x.data ++ ('"' :: (',' :: ' ' ::
            (commaJoin (quoteString y :: ys.map quoteString) ++ (']' :: tail)))))
          by simp [quoteString]]
        rw [skipWs_cons_of _ (by decide)]
        have hp : parseJString (pre ++ (quoteString x ++ (',' :: ' ' ::
            (commaJoin (quoteString y :: ys.map quoteString) ++ (']' :: tail))))) =
            some (x.data, ',' :: ' ' ::
              (commaJoin (quoteString y :: ys.map quoteString) ++ (']' :: tail))) :=
          parseJString_quote pre x _ hpre
        rw [show pre ++ ('"' :: (escapeList x.data ++ ('"' :: (',' :: ' ' ::
            (commaJoin (quoteString y :: ys.map quoteString) ++ (']' :: tail)))))) =
          pre ++ (quoteString x ++ (',' :: ' ' ::
            (commaJoin (quoteString y :: ys.map quoteString) ++ (']' :: tail))))
          by simp [quoteString]]
        simp only [hp]
        rw [skipWs_cons_of _ (by decide)]
        have hrec := ih f [' '] tail isWs_space (by simpa using Nat.lt_of_succ_lt_succ hf)
        simp only [List.map_cons, List.singleton_append] at hrec
        simp [hrec, mk_data]

theorem parseItems_print_nil (ps : List String) (fuel : Nat) (tail : List Char)
    (hf : ps.length < fuel) :
    parseItems fuel (commaJoin (ps.map quoteString) ++ (']' :: tail)) = some (ps, tail) := by
  have h := parseItems_print ps fuel [] tail isWs_nil hf
  simpa using h

theorem parseTurn_print (t : Turn) (fuel : Nat) (pre tail : List Char)
    (hpre : IsWs pre) (hf : t.parts.length < fuel) :
    parseTurn fuel (pre ++ (serializeTurn t ++ tail)) = some (t, tail) := by
  have hser : serializeTurn t ++ tail =
      '{' :: (quoteString "role" ++ (':' :: ' ' :: (quoteString t.role ++ (',' :: ' ' ::
        (quoteString "parts" ++ (':' :: ' ' :: ('[' :: (commaJoin (t.parts.map quoteString) ++
          (']' :: ('}' :: tail)))))))))) := by
    simp [serializeTurn, serializeParts]
  have hitems := parseItems_print_nil t.parts fuel ('}' :: tail) hf
  unfold parseTurn
  rw [hser, skipWs_ws_append _ hpre, skipWs_cons_of _ (by decide)]
  simp [skipWs, hitems, parseJString_quote_nil, parseJString_quote_space, mk_data]



theorem historyFuel_cons (t : Turn) (ts : History) :
    historyFuel (t :: ts) = t.parts.length + historyFuel ts + 1 := by
  simp [historyFuel]
  omega

theorem serializeTurn_append (t : Turn) (tail : List Char) :
    serializeTurn t ++ tail = '{' :: serializeTurnBody t tail := by
  simp [serializeTurn, serializeParts, serializeTurnBody]

theorem parseTurns_print (h : History) :
    ∀ (fuel : Nat) (pre tail : List Char), IsWs pre → historyFuel h < fuel →
      parseTurns fuel (pre ++ (commaJoin (h.map serializeTurn) ++ (']' :: tail))) =
        some (h, tail) := by
  induction h with
  | nil =>
    intro fuel pre tail hpre hf
    cases fuel with
    | zero => simp [historyFuel] at hf
    | succ f =>
      rw [parseTurns.eq_def]
      simp only [List.map_nil, commaJoin, List.nil_append]
      rw [skipWs_ws_append _ hpre, skipWs_cons_of _ (by decide)]
      rfl
  | cons t ts ih =>
    intro fuel pre tail hpre hf
    cases fuel with
    | zero => simp [historyFuel] at hf
    | succ f =>
      cases ts with
      | nil =>
        have hpt := parseTurn_print t (f + 1) pre (']' :: tail) hpre
          (by rw [historyFuel_cons] at hf; omega)
        rw [parseTurns.eq_def]
        simp only [List.map_cons, List.map_nil, commaJoin]
        rw [serializeTurn_append] at hpt ⊢
        rw [skipWs_ws_append _ hpre]
        simp [skipWs, hpt]
      | cons t2 ts2 =>
        have hpt := parseTurn_print t (f + 1) pre
          (',' :: ' ' :: (commaJoin ((t2 :: ts2).map serializeTurn) ++ (']' :: tail))) hpre
          (by rw [historyFuel_cons] at hf; omega)
        simp only [List.map_cons] at hpt
        have hrec := ih f [' '] tail isWs_space
          (by rw [historyFuel_cons] at hf; omega)
        simp only [List.map_cons, List.singleton_append] at hrec
        rw [parseTurns.eq_def]
        simp only [List.map_cons, commaJoin, List.append_assoc, List.cons_append]
        rw [serializeTurn_append] at hpt ⊢
        rw [skipWs_ws_append _ hpre]
        simp [skipWs, hpt, hrec]

theorem data_mk (l : List Char) : (String.mk l).data = l := rfl

theorem commaJoin_length_ge (xs : List (List Char)) (hx : ∀ x ∈ xs, 1 ≤ x.length) :
    xs.length ≤ (commaJoin xs).length := by
  induction xs with
  | nil => simp [commaJoin]
  | cons x ys ih =>
    cases ys with
    | nil =>
      have := hx x (by simp)
      simpa [commaJoin] using this
    | cons y zs =>
      have h1 := hx x (by simp)
      have h2 := ih (fun z hz => hx z (by simp [hz]))
      simp only [commaJoin, List.length_append, List.length_cons] at *
      omega

theorem serializeTurn_length (t : Turn) :
    t.parts.length + 1 ≤ (serializeTurn t).length := by
  have hcj : t.parts.length ≤ (commaJoin (t.parts.map quoteString)).length := by
    have := commaJoin_length_ge (t.parts.map quoteString) (by
      intro x hx
      obtain ⟨s, _, rfl⟩ := List.mem_map.mp hx
      simp [quoteString])
    simpa using this
  simp only [serializeTurn, serializeParts, List.length_cons, List.length_append]
  omega

theorem historyFuel_le (h : History) :
    historyFuel h ≤ (commaJoin (h.map serializeTurn)).length := by
  induction h with
  | nil => simp [historyFuel, commaJoin]
  | cons t ts ih =>
    cases ts with
    | nil =>
      have := serializeTurn_length t
      simp only [List.map_cons, List.map_nil, commaJoin, historyFuel_cons]
      simp [historyFuel]
      omega
    | cons t2 ts2 =>
      have h1 := serializeTurn_length t
      rw [historyFuel_cons]
      simp only [List.map_cons, commaJoin, List.length_append, List.length_cons]
      simp only [List.map_cons] at ih
      omega

/-- C1 core lemma: reading back the printed wire form of any history
returns exactly that history. -/
theorem deserialize_serialize (h : History) :
    deserializeHistory (serializeHistory h) = some h := by
  unfold deserializeHistory serializeHistory
  rw [data_mk, skipWs_cons_of _ (by decide)]
  have hfl := historyFuel_le h
  have hpt := parseTurns_print h
    (('[' :: (commaJoin (h.map serializeTurn) ++ [']'])).length + 1) [] [] isWs_nil
    (by simp only [List.length_cons, List.length_append]; omega)
  simp only [List.nil_append, List.length_cons, List.length_append,
    List.length_singleton, List.length_nil, Nat.zero_add] at hpt
  simp [skipWs, hpt]


/-! ## Helper lemmas about the server embedding -/

theorem analyzeCore_ok_length (env : Server.Env) (img : Option String) (q m : String)
    (hist : Option History) (ans : String) (h' : History)
    (hc : Server.analyzeCore env img q m hist = Except.ok (ans, h')) :
    h'.length = (hist.getD []).length + 2 := by
  simp only [Server.analyzeCore] at hc
  split at hc
  · split at hc
    · simp at hc
    · split at hc
      · simp at hc
      · split at hc
        · simp at hc
        · split at hc
          · simp at hc
          · obtain ⟨rfl, rfl⟩ : _ ∧ _ = h' := by simpa using hc
            simp
  · split at hc
    · simp at hc
    · obtain ⟨rfl, rfl⟩ : _ ∧ _ = h' := by simpa using hc
      simp

theorem formGet_cons_self (req : Server.Request) (k v : String) :
    Server.formGet ⟨(k, v) :: req.form, req.files⟩ k = some v := by
  simp [Server.formGet, List.find?]

theorem formGet_cons_ne (req : Server.Request) (k v k' : String) (h : k' ≠ k) :
    Server.formGet ⟨(k, v) :: req.form, req.files⟩ k' = Server.formGet req k' := by
  have : (k == k') = false := by
    simp only [beq_eq_false_iff_ne, ne_eq]
    exact fun he => h he.symm
  simp [Server.formGet, List.find?, this]

theorem handleWithQuestion_ne_missing_question (env : Server.Env) (req : Server.Request)
    (q : String) :
    Server.handleWithQuestion env req q ≠
      Except.ok (Server.HttpResponse.clientError "No question provided.") := by
  unfold Server.handleWithQuestion
  split
  · simp
  · split
    · split
      · intro h
        simp only [Except.ok.injEq, Server.HttpResponse.clientError.injEq] at h
        exact absurd h (by decide)
      · simp
    · simp

/-! ## The claims -/

/-- C1: History serialization round-trip.  For every history value `h`
(in particular every history the server returns in a `TurnResponse`),
deserializing the serialized wire form yields `h` back:
`json.loads (json.dumps h) = h`, where the embedding's
`serializeHistory`/`deserializeHistory` are those two operations on the
history fragment of JSON. -/
theorem C1_history_roundtrip (h : History) :
    deserializeHistory (serializeHistory h) = some h :=
  deserialize_serialize h

/-- C2: Turn growth invariant.  A `converse` call (server-side
`analyze_image`) whose `try:` body succeeds returns a history exactly
two turns longer than the input history; a call whose body raises
returns the empty history. -/
theorem C2_turn_growth (env : Server.Env) (image_bytes : Option String) (q m : String)
    (history : Option History) :
    (∀ ans h', Server.analyzeCore env image_bytes q m history = Except.ok (ans, h') →
      (Server.analyze_image env image_bytes q m history).2.length =
        (history.getD []).length + 2) ∧
    (∀ e, Server.analyzeCore env image_bytes q m history = Except.error e →
      (Server.analyze_image env image_bytes q m history).2 = []) := by
  constructor
  · intro ans h' hc
    unfold Server.analyze_image
    rw [hc]
    exact analyzeCore_ok_length env image_bytes q m history ans h' hc
  · intro e hc
    unfold Server.analyze_image
    rw [hc]

/-- C2 witness: a concrete successful follow-up call grows a one-turn
history to three turns, and a concrete failing call (new conversation
without image bytes) returns the empty history. -/
theorem C2_turn_growth_witness :
    (Server.analyze_image envOk none "q" "general" (some [turnX])).2.length = 1 + 2 ∧
    (Server.analyze_image envOk none "q" "general" none).2 = [] := by
  constructor
  · have h := (C2_turn_growth envOk none "q" "general" (some [turnX])).1
    have h2 := h "Hello" [turnX, ⟨"user", ["q"]⟩, ⟨"model", ["Hello"]⟩] (by rfl)
    simpa using h2
  · exact (C2_turn_growth envOk none "q" "general" none).2
      "Image bytes are required for a new conversation." (by rfl)

/-- C3 counterexample: at a concrete failing call (the model raises),
the answer the code returns is `"I could not connect to Gemini or
process the image."`, not the claim's `"I could not connect to the
model or process the image."`. -/
theorem C3_counterexample :
    Server.analyzeCore envSendFail none "q" "general" (some [turnX]) =
      Except.error "ServiceUnavailable" ∧
    (Server.analyze_image envSendFail none "q" "general" (some [turnX])).1 ≠
      "I could not connect to the model or process the image." := by
  constructor
  · rfl
  · decide

/-- C3 (amended): every failure of the `try:` body is caught and
converted to the fixed answer `"I could not connect to Gemini or
process the image."` paired with the empty history; no exception
propagates out of `analyze_image`. -/
theorem C3_failure_policy (env : Server.Env) (image_bytes : Option String) (q m : String)
    (history : Option History) (e : String)
    (hc : Server.analyzeCore env image_bytes q m history = Except.error e) :
    Server.analyze_image env image_bytes q m history = (Server.geminiErrorText, []) := by
  unfold Server.analyze_image
  rw [hc]

/-- C3 witness: the amended failure policy at a concrete failing
call. -/
theorem C3_failure_policy_witness :
    Server.analyze_image envSendFail none "q" "general" (some [turnX]) =
      (Server.geminiErrorText, []) :=
  C3_failure_policy envSendFail none "q" "general" (some [turnX]) "ServiceUnavailable"
    (by rfl)

/-- C6 counterexample: pressing the key of the currently selected mode
from an active conversation leaves the state unchanged — the history is
retained, not discarded, so the machine does not transition to Idle. -/
theorem C6_counterexample :
    Client.handleModeKey stateActive1 '1' = stateActive1 ∧
    Client.isIdle (Client.handleModeKey stateActive1 '1') = false := by
  constructor
  · rfl
  · rfl

/-- C6 (amended): a mode key that differs from the current mode resets
the machine to Idle, discarding any history; pressing the current
mode's key leaves the state — including its history — unchanged. -/
theorem C6_mode_switch (s : Client.ClientState) (c : Char) (hc : Client.modes c ≠ none) :
    (s.current_mode_key ≠ c → Client.handleModeKey s c = ⟨c, none⟩) ∧
    (s.current_mode_key = c → Client.handleModeKey s c = s) := by
  unfold Client.handleModeKey
  cases hm : Client.modes c with
  | none => exact absurd hm hc
  | some _ =>
    constructor
    · intro hne
      simp [hne]
    · intro heq
      simp [heq]

/-- C6 witness: from the active state, key `'2'` resets to Idle while
key `'1'` (the current mode) keeps the conversation. -/
theorem C6_mode_switch_witness :
    Client.handleModeKey stateActive1 '2' = ⟨'2', none⟩ ∧
    Client.handleModeKey stateActive1 '1' = stateActive1 :=
  ⟨(C6_mode_switch stateActive1 '2' (by decide)).1 (by decide),
   (C6_mode_switch stateActive1 '1' (by decide)).2 rfl⟩

/-- C7 counterexample: a follow-up from an active state whose HTTP
round trip fails with a request error leaves the client with its old
history — it stays Active instead of transitioning to Idle. -/
theorem C7_counterexample :
    Client.handleFollowUp (fun _ => true) (Except.error "ConnectionError") "why"
      stateActive1 = stateActive1 ∧
    Client.isIdle (Client.handleFollowUp (fun _ => true) (Except.error "ConnectionError")
      "why" stateActive1) = false := by
  constructor
  · rfl
  · rfl

/-- C7 (amended): for a follow-up from an active state, an upstream
service failure — a successful round trip whose response carries an
empty history — leaves the client with the empty history, i.e. Idle;
a request failure leaves the prior history in place, and the client
remains Active. -/
theorem C7_failed_followup (fe : String → Bool) (listen : String)
    (s : Client.ClientState) (hact : Client.isIdle s = false) (hl : listen ≠ "") :
    (∀ r, Client.handleFollowUp fe (Except.ok (r, [])) listen s =
        { s with chat_history := some [] } ∧
      Client.isIdle (Client.handleFollowUp fe (Except.ok (r, [])) listen s) = true) ∧
    (∀ e, Client.handleFollowUp fe (Except.error e) listen s = s ∧
      Client.isIdle (Client.handleFollowUp fe (Except.error e) listen s) = false) := by
  unfold Client.isIdle at hact
  constructor
  · intro r
    have hstep : Client.handleFollowUp fe (Except.ok (r, [])) listen s =
        { s with chat_history := some [] } := by
      unfold Client.handleFollowUp Client.client_analyze
      simp [hact, hl]
    exact ⟨hstep, by rw [hstep]; rfl⟩
  · intro e
    have hstep : Client.handleFollowUp fe (Except.error e) listen s = s := by
      unfold Client.handleFollowUp Client.client_analyze
      simp [hact, hl]
    exact ⟨hstep, by rw [hstep]; exact hact⟩

/-- C7 witness: the amended behavior at the concrete active state —
empty-history response makes the client Idle; a connection error keeps
the old history and the client Active. -/
theorem C7_failed_followup_witness :
    (Client.handleFollowUp (fun _ => true) (Except.ok ("oops", [])) "why" stateActive1 =
        { stateActive1 with chat_history := some [] } ∧
      Client.isIdle (Client.handleFollowUp (fun _ => true) (Except.ok ("oops", [])) "why"
        stateActive1) = true) ∧
    (Client.handleFollowUp (fun _ => true) (Except.error "ConnectionError") "why"
        stateActive1 = stateActive1 ∧
      Client.isIdle (Client.handleFollowUp (fun _ => true)
        (Except.error "ConnectionError") "why" stateActive1) = false) :=
  ⟨(C7_failed_followup (fun _ => true) "why" stateActive1 (by rfl) (by decide)).1 "oops",
   (C7_failed_followup (fun _ => true) "why" stateActive1 (by rfl) (by decide)).2
     "ConnectionError"⟩

/-- C8: Mode Registry fallback, as the prompts dict is evidently meant
to read (see the header note on its missing closing brace): any mode
identifier other than `"street"` and `"kitchen"` — in particular any
identifier outside the closed set — looks up the same system prompt as
`"general"`, and the lookup is total. -/
theorem C8_prompts_fallback (mode : String) (h1 : mode ≠ "street") (h2 : mode ≠ "kitchen") :
    Server.promptsGet mode = Server.promptsGet "general" := by
  unfold Server.promptsGet
  rw [if_neg h1, if_neg h2]
  by_cases hg : mode = "general" <;> simp [hg]

/-- C8 witness: `promptFor("nonexistent-mode") = promptFor("general")`. -/
theorem C8_prompts_fallback_witness :
    Server.promptsGet "nonexistent-mode" = Server.promptsGet "general" :=
  C8_prompts_fallback "nonexistent-mode" (by decide) (by decide)

/-- C9: Warning-prefix gating.  `speak` plays the warning cue exactly
once when the answer text begins (case-insensitively) with one of
"Warning:", "Caution:", "Danger:", and never otherwise. -/
theorem C9_warning_prefix_gating (text : String) :
    Client.speakWarningCues text = (if Client.warningPrefixed text then 1 else 0) := by
  unfold Client.speakWarningCues Client.warningPrefixed
  by_cases ht : text = ""
  · subst ht
    decide
  · simp only [if_neg ht, List.any_cons, List.any_nil, Bool.or_false, Bool.or_assoc]

/-- C4 counterexample: a request whose history field holds the
non-JSON string `"bad"` makes the handler raise — its outcome is the
escaped `json.JSONDecodeError`, not a structured client-error
response of any kind. -/
theorem C4_counterexample :
    Server.handle_analysis envOk reqBadHistory =
      Except.error "json.decoder.JSONDecodeError" := by
  rfl

/-- C4 (amended): a malformed (non-JSON-decodable) history field makes
`json.loads` raise a `json.JSONDecodeError` that nothing in the handler
catches; the exception escapes the handler (the framework then renders
an opaque 500), so the caller cannot distinguish a bad history from an
inference failure. -/
theorem C4_malformed_history (env : Server.Env) (req : Server.Request) (q s : String)
    (hq : Server.formGet req "question" = some q)
    (hs : Server.formGet req "history" = some s) (hne : s ≠ "")
    (hbad : deserializeHistory s = none) :
    Server.handle_analysis env req = Except.error "json.decoder.JSONDecodeError" := by
  unfold Server.handle_analysis
  rw [hq]
  unfold Server.handleWithQuestion Server.loadHistory
  rw [hs]
  simp [hne, hbad]

/-- C4 witness: the amended behavior at a concrete request with the
malformed history field `"[[["`. -/
theorem C4_malformed_history_witness :
    Server.handle_analysis envOk reqBadHistory2 =
      Except.error "json.decoder.JSONDecodeError" :=
  C4_malformed_history envOk reqBadHistory2 "hello" "[[[" (by rfl) (by rfl) (by decide)
    (by rfl)

/-- C5: validation order of the handler.  (a) a missing question field
yields the 400 missing-question response; (b) an absent mode field
behaves exactly like mode `"general"`; (c) with no (non-empty) loaded
history, a missing image file yields the 400 missing-image response;
(d) with both an image file and a non-empty history present the request
is accepted, the history takes precedence, and the image is ignored
(the response is computed from the history path alone). -/
theorem C5_validation_order (env : Server.Env) (req : Server.Request) :
    (Server.formGet req "question" = none →
      Server.handle_analysis env req =
        Except.ok (Server.HttpResponse.clientError "No question provided.")) ∧
    (Server.formGet req "mode" = none →
      Server.handle_analysis env ⟨("mode", "general") :: req.form, req.files⟩ =
        Server.handle_analysis env req) ∧
    (∀ q hist, Server.formGet req "question" = some q →
      Server.loadHistory (Server.formGet req "history") = Except.ok hist →
      (hist.getD []).isEmpty = true →
      Server.filesGet req "image" = none →
      Server.handle_analysis env req =
        Except.ok (Server.HttpResponse.clientError
          "No image file provided for a new conversation.")) ∧
    (∀ q hist img, Server.formGet req "question" = some q →
      Server.loadHistory (Server.formGet req "history") = Except.ok (some hist) →
      hist ≠ [] →
      Server.filesGet req "image" = some img →
      Server.handle_analysis env req =
        Except.ok (Server.HttpResponse.result
          (Server.analyze_image env none q ((Server.formGet req "mode").getD "general")
            (some hist)).1
          (Server.analyze_image env none q ((Server.formGet req "mode").getD "general")
            (some hist)).2)) := by
  refine ⟨?_, ?_, ?_, ?_⟩
  · intro h
    unfold Server.handle_analysis
    rw [h]
  · intro hm
    unfold Server.handle_analysis
    rw [formGet_cons_ne req "mode" "general" "question" (by decide)]
    cases hqq : Server.formGet req "question" with
    | none => rfl
    | some q =>
      unfold Server.handleWithQuestion
      rw [formGet_cons_self req "mode" "general",
        formGet_cons_ne req "mode" "general" "history" (by decide), hm]
      rfl
  · intro q hist hq hload hemp himg
    unfold Server.handle_analysis
    rw [hq]
    unfold Server.handleWithQuestion
    rw [hload]
    simp [hemp, himg]
  · intro q hist img hq hload hne himg
    have hie : hist.isEmpty = false := by
      cases hist with
      | nil => exact absurd rfl hne
      | cons a l => rfl
    unfold Server.handle_analysis
    rw [hq]
    unfold Server.handleWithQuestion
    rw [hload]
    simp [hie, himg]

/-- C5 witness: the four validation outcomes at concrete requests — a
missing question, a missing mode, a fresh request without an image, and
a request with both image and non-empty history. -/
theorem C5_validation_order_witness :
    Server.handle_analysis envOk reqNoQuestion =
      Except.ok (Server.HttpResponse.clientError "No question provided.") ∧
    Server.handle_analysis envOk ⟨("mode", "general") :: reqNoMode.form, reqNoMode.files⟩ =
      Server.handle_analysis envOk reqNoMode ∧
    Server.handle_analysis envOk reqFresh =
      Except.ok (Server.HttpResponse.clientError
        "No image file provided for a new conversation.") ∧
    Server.handle_analysis envOk reqBoth =
      Except.ok (Server.HttpResponse.result
        (Server.analyze_image envOk none "q"
          ((Server.formGet reqBoth "mode").getD "general") (some [turnX])).1
        (Server.analyze_image envOk none "q"
          ((Server.formGet reqBoth "mode").getD "general") (some [turnX])).2) :=
  ⟨(C5_validation_order envOk reqNoQuestion).1 (by rfl),
   (C5_validation_order envOk reqNoMode).2.1 (by rfl),
   (C5_validation_order envOk reqFresh).2.2.1 "q" none (by rfl) (by rfl) (by rfl) (by rfl),
   (C5_validation_order envOk reqBoth).2.2.2 "q" [turnX] "IMG" (by rfl) (by rfl)
     (by decide) (by rfl)⟩

/-- C10: the question check is presence-only.  A request whose question
field is the empty string is not answered with the 400 missing-question
error; the handler proceeds to history/image validation with the empty
question, and when that passes, to inference with the empty question. -/
theorem C10_empty_question (env : Server.Env) (req : Server.Request)
    (hq : Server.formGet req "question" = some "") :
    Server.handle_analysis env req = Server.handleWithQuestion env req "" ∧
    Server.handle_analysis env req ≠
      Except.ok (Server.HttpResponse.clientError "No question provided.") ∧
    (∀ img, Server.loadHistory (Server.formGet req "history") = Except.ok none →
      Server.filesGet req "image" = some img →
      Server.handle_analysis env req =
        Except.ok (Server.HttpResponse.result
          (Server.analyze_image env (some img) ""
            ((Server.formGet req "mode").getD "general") none).1
          (Server.analyze_image env (some img) ""
            ((Server.formGet req "mode").getD "general") none).2)) := by
  have h1 : Server.handle_analysis env req = Server.handleWithQuestion env req "" := by
    unfold Server.handle_analysis
    rw [hq]
  refine ⟨h1, ?_, ?_⟩
  · rw [h1]
    exact handleWithQuestion_ne_missing_question env req ""
  · intro img hload himg
    rw [h1]
    unfold Server.handleWithQuestion
    rw [hload]
    simp [himg]

/-- C10 witness: a concrete request with an empty question and an image
reaches inference with the empty question. -/
theorem C10_empty_question_witness :
    Server.handle_analysis envOk reqEmptyQuestion =
      Except.ok (Server.HttpResponse.result
        (Server.analyze_image envOk (some "IMGBYTES") ""
          ((Server.formGet reqEmptyQuestion "mode").getD "general") none).1
        (Server.analyze_image envOk (some "IMGBYTES") ""
          ((Server.formGet reqEmptyQuestion "mode").getD "general") none).2) :=
  (C10_empty_question envOk reqEmptyQuestion (by rfl)).2.2 "IMGBYTES" (by rfl) (by rfl)

end GeminiVision
